import Mathlib

/-!
Verification of the Api-Talk-ChatGPT query assistant (src/src/index.js).

The module `ApiTalkChatGPT` orchestrates, per `getResponse` call:
1. a language-model call that selects an endpoint descriptor by name,
2. an HTTP fetch against the selected descriptor (URL + query string,
   method, headers, optional JSON body),
3. an optional second HTTP fetch against the descriptor's `chain`
   sub-descriptor,
4. a language-model call that formats the combined payload.

The embedding below translates the JavaScript directly.  External
collaborators (the OpenAI client and `node-fetch`) are modelled by an
oracle `Env` giving the outcome of each of the four remote interactions;
`getResponse` returns the value handed back to the caller together with
an event trace (every outbound model call and HTTP fetch, in order) and
the post-call state of the caller-supplied endpoint descriptors, which
makes the in-place mutation of a descriptor's `headers` object at
line 186 of the source observable.
-/

/-- JSON values, as produced by `response.json()` and consumed by
`JSON.stringify`.  Numbers are modelled as integers. -/
inductive Json where
  | null : Json
  | bool : Bool → Json
  | num : Int → Json
  | str : String → Json
  | arr : List Json → Json
  | obj : List (String × Json) → Json
deriving Repr

/-- Escape one character for a JSON string literal. -/
def escChar (c : Char) : String :=
  if c = '"' then "\\\""
  else if c = '\\' then "\\\\"
  else if c = '\n' then "\\n"
  else if c = '\t' then "\\t"
  else if c = '\r' then "\\r"
  else String.singleton c

/-- Escape a string for inclusion in JSON output. -/
def escapeString (s : String) : String :=
  String.join (s.toList.map escChar)

mutual

/-- `JSON.stringify`, restricted to the JSON values of this model. -/
def Json.stringify : Json → String
  | .null => "null"
  | .bool true => "true"
  | .bool false => "false"
  | .num n => toString n
  | .str s => "\"" ++ escapeString s ++ "\""
  | .arr l => "[" ++ stringifyList l ++ "]"
  | .obj fs => "\x7b" ++ stringifyFields fs ++ "\x7d"

/-- Comma-separated serialization of array elements. -/
def stringifyList : List Json → String
  | [] => ""
  | [j] => Json.stringify j
  | j :: rest => Json.stringify j ++ "," ++ stringifyList rest

/-- Comma-separated serialization of object fields. -/
def stringifyFields : List (String × Json) → String
  | [] => ""
  | [(k, v)] => "\"" ++ escapeString k ++ "\":" ++ Json.stringify v
  | (k, v) :: rest =>
      "\"" ++ escapeString k ++ "\":" ++ Json.stringify v ++ "," ++ stringifyFields rest

end

/-- JavaScript truthiness of a JSON value (`null`, `false`, `0` and the
empty string are falsy; arrays and objects are always truthy). -/
def Json.jsTruthy : Json → Bool
  | .null => false
  | .bool b => b
  | .num n => n != 0
  | .str s => s != ""
  | .arr _ => true
  | .obj _ => true

/-- `Array.isArray(data) ? data : [data]` — the normalization applied to
every fetched JSON body before it is merged into the payload. -/
def wrapList : Json → List Json
  | .arr l => l
  | j => [j]

/-- UTF-8 encoding of a single character, as a list of byte values. -/
def utf8Bytes (c : Char) : List Nat :=
  let n := c.toNat
  if n < 128 then [n]
  else if n < 2048 then [192 + n / 64, 128 + n % 64]
  else if n < 65536 then [224 + n / 4096, 128 + (n / 64) % 64, 128 + n % 64]
  else [240 + n / 262144, 128 + (n / 4096) % 64, 128 + (n / 64) % 64, 128 + n % 64]

/-- Upper-case hexadecimal digit. -/
def hexDigit (n : Nat) : Char :=
  if n < 10 then Char.ofNat (48 + n) else Char.ofNat (55 + n)

/-- Percent-encode one byte. -/
def percentByte (b : Nat) : String :=
  String.singleton '%' ++ String.singleton (hexDigit (b / 16)) ++ String.singleton (hexDigit (b % 16))

/-- Characters `URLSearchParams` leaves unescaped. -/
def formUnreserved (c : Char) : Bool :=
  c.isAlphanum || c = '*' || c = '-' || c = '.' || c = '_'

/-- `application/x-www-form-urlencoded` encoding of one character
(space becomes a plus sign, other reserved characters are
percent-encoded byte-wise). -/
def formEncodeChar (c : Char) : String :=
  if c = ' ' then "+"
  else if formUnreserved c then String.singleton c
  else String.join ((utf8Bytes c).map percentByte)

/-- `application/x-www-form-urlencoded` encoding of a string. -/
def formEncode (s : String) : String :=
  String.join (s.toList.map formEncodeChar)

/-- `new URLSearchParams(query).toString()`. -/
def encodeParams (qs : List (String × String)) : String :=
  String.intercalate "&" (qs.map (fun p => formEncode p.1 ++ "=" ++ formEncode p.2))

/-- ASCII lower-casing of one character (`String.prototype.toLowerCase`
restricted to the ASCII range). -/
def jsToLowerChar (c : Char) : Char :=
  if 65 ≤ c.toNat && c.toNat ≤ 90 then Char.ofNat (c.toNat + 32) else c

/-- `String.prototype.toLowerCase`. -/
def jsToLower (s : String) : String :=
  String.mk (s.toList.map jsToLowerChar)

/-- ASCII upper-casing of one character (`String.prototype.toUpperCase`
restricted to the ASCII range). -/
def jsToUpperChar (c : Char) : Char :=
  if 97 ≤ c.toNat && c.toNat ≤ 122 then Char.ofNat (c.toNat - 32) else c

/-- `String.prototype.toUpperCase`. -/
def jsToUpper (s : String) : String :=
  String.mk (s.toList.map jsToUpperChar)

/-- The whitespace characters removed by `String.prototype.trim`. -/
def jsIsWhitespace (c : Char) : Bool :=
  c = ' ' || c = '\t' || c = '\n' || c = '\r' || c.toNat = 11 || c.toNat = 12 || c.toNat = 160

/-- `String.prototype.trim`. -/
def jsTrim (s : String) : String :=
  String.mk (((s.toList.dropWhile jsIsWhitespace).reverse.dropWhile jsIsWhitespace).reverse)

/-- `String.prototype.includes` for a single character. -/
def jsIncludesChar (s : String) (c : Char) : Bool :=
  s.toList.any (fun x => x == c)

/-- One chat message sent to the language-model client. -/
structure ChatMsg where
  role : String
  content : String
deriving Repr, DecidableEq

/-- The outbound HTTP request handed to `fetch`. -/
structure HttpRequest where
  url : String
  method : String
  headers : List (String × String)
  body : Option String
deriving Repr, DecidableEq

/-- The request-relevant fields shared by an endpoint descriptor and a
`chain` sub-descriptor. -/
structure ReqFields where
  url : String
  method : Option String
  headers : Option (List (String × String))
  query : Option (List (String × String))
  body : Option Json
deriving Repr

/-- A caller-supplied endpoint descriptor. -/
structure Endpoint where
  name : String
  url : String
  description : String
  examples : List String
  responseExample : Json
  method : Option String
  headers : Option (List (String × String))
  query : Option (List (String × String))
  body : Option Json
  chain : Option ReqFields
deriving Repr

/-- The request-relevant fields of a descriptor. -/
def Endpoint.toReqFields (e : Endpoint) : ReqFields :=
  ⟨e.url, e.method, e.headers, e.query, e.body⟩

/-- An observable outbound interaction of one `getResponse` call. -/
inductive Event where
  | modelCall : String → List ChatMsg → Int → Event
  | httpFetch : HttpRequest → Event
deriving Repr, DecidableEq

/-- What a resolved `fetch` promise yields: an HTTP status (never
inspected by the source) and the outcome of `response.json()`. -/
structure HttpResp where
  status : Nat
  jsonBody : Except Unit Json

/-- Oracle for the four remote interactions of one call, in source
order: selection model call, primary fetch, chain fetch, formatting
model call.  `Except.error` means the corresponding promise rejected
(for a fetch) or the call failed (for a model call); for a fetch that
resolved, a malformed body is an `Except.error` inside `jsonBody`. -/
structure Env where
  selectOutcome : Except Unit String
  primaryOutcome : Except Unit HttpResp
  chainOutcome : Except Unit HttpResp
  formatOutcome : Except Unit String

/-- Instance state set up by the constructor (`this.model`,
`this.maxTokens`). -/
structure ApiInstance where
  model : String
  maxTokens : Int
deriving Repr, DecidableEq

/-- The per-call `options` argument. -/
structure Options where
  model : Option String
  maxTokens : Option Int
deriving Repr, DecidableEq

/-- `options.model || this.model` (a supplied empty string is falsy and
falls back to the instance default). -/
def effModel (st : ApiInstance) (opts : Options) : String :=
  match opts.model with
  | some m => if m = "" then st.model else m
  | none => st.model

/-- `options.maxTokens || this.maxTokens` (a supplied zero is falsy and
falls back to the instance default). -/
def effMaxTokens (st : ApiInstance) (opts : Options) : Int :=
  match opts.maxTokens with
  | some n => if n = 0 then st.maxTokens else n
  | none => st.maxTokens

/-- JavaScript property assignment `headers[k] = v`: overwrite in place
when the key exists, append otherwise. -/
def setHeader (hs : List (String × String)) (k v : String) : List (String × String) :=
  if hs.any (fun p => p.1 == k) then hs.map (fun p => if p.1 == k then (k, v) else p)
  else hs ++ [(k, v)]

/-- URL construction: append the encoded query parameters, joined with
an ampersand when the base URL already contains a question mark and
with a question mark otherwise. -/
def buildUrl (url : String) (query : Option (List (String × String))) : String :=
  match query with
  | some qs => url ++ (if jsIncludesChar url '?' then "&" else "?") ++ encodeParams qs
  | none => url

/-- `descriptor.method || "GET"`. -/
def jsMethodDefault (m : Option String) : String :=
  match m with
  | some s => if s = "" then "GET" else s
  | none => "GET"

/-- Build the outbound request for a descriptor, mirroring lines
174–188 (and 200–212) of the source.  The second component is the
post-call content of the descriptor's own `headers` field: the source
aliases `requestOptions.headers` to the caller's headers object, so the
`Content-Type` assignment mutates it whenever it was supplied. -/
def buildRequest (f : ReqFields) : HttpRequest × Option (List (String × String)) :=
  let url := buildUrl f.url f.query
  let method := jsMethodDefault f.method
  let headers0 := f.headers.getD []
  match f.body with
  | some b =>
      if b.jsTruthy && jsToUpper method != "GET" then
        let headers1 := setHeader headers0 "Content-Type" "application/json"
        (⟨url, method, headers1, some (Json.stringify b)⟩, f.headers.map (fun _ => headers1))
      else
        (⟨url, method, headers0, none⟩, f.headers)
  | none => (⟨url, method, headers0, none⟩, f.headers)

/-- The selection predicate of line 165:
`e.name.toLowerCase() === selectedEndpointName.toLowerCase()`. -/
def selPred (selName : String) (e : Endpoint) : Bool :=
  jsToLower e.name == jsToLower selName

/-- Replace the first element satisfying `p` by its image under `f`
(JavaScript mutation of the element `Array.prototype.find` returned). -/
def updateFirst (p : Endpoint → Bool) (f : Endpoint → Endpoint) : List Endpoint → List Endpoint
  | [] => []
  | e :: es => if p e then f e :: es else e :: updateFirst p f es

/-- Effect of building the primary request on the selected descriptor:
its `headers` object may gain `Content-Type` (line 186). -/
def updHdr (x : Endpoint) : Endpoint :=
  { x with headers := (buildRequest x.toReqFields).2 }

/-- Effect of building the chain request on the selected descriptor:
its chain's `headers` object may gain `Content-Type` (line 210). -/
def updChain (x : Endpoint) : Endpoint :=
  { x with chain := x.chain.map (fun c => { c with headers := (buildRequest c).2 }) }

/-- One descriptor's block in the selection prompt. -/
def endpointLine (e : Endpoint) : String :=
  "- " ++ e.name ++ ": " ++ e.description ++ "\n          Common questions: " ++
    String.intercalate ", " e.examples ++ "\n          Expected response example: " ++
    Json.stringify e.responseExample

/-- The endpoint-selection prompt of lines 144–152. -/
def selectionPrompt (query : String) (endpoints : List Endpoint) : String :=
  "I have the following available endpoints:\n      " ++
    String.intercalate "\n\n" (endpoints.map endpointLine) ++
    "\n\n      Based on the following user query, select the most relevant endpoint: \"" ++
    query ++ "\". \n      Return only the exact name of the endpoint, without explanation."

/-- The formatting prompt of lines 219–227. -/
def formatPrompt (finalData : Json) (language : String) : String :=
  "The following data was retrieved:\n      " ++ Json.stringify finalData ++
    "\n\n      Please format the response in a clear, human-readable way in " ++ language ++
    ". \n      Example:\n      - If language is \x27en\x27: \x27The product \"XYZ\" is available. The total price is $123.45.\x27\n      - If language is \x27es\x27: \x27El producto \"XYZ\" está disponible. El precio total es $123.45.\x27\n      \n      Generate a similar response using the retrieved data."

/-- System message of the selection call. -/
def selectSystemMsg : ChatMsg :=
  ⟨"system", "You are an assistant that selects the best endpoint based on queries and response examples."⟩

/-- System message of the formatting call. -/
def formatSystemMsg : ChatMsg :=
  ⟨"system", "You are an assistant that formats responses based on database queries into natural language."⟩

/-- Message list of the selection call (lines 156–160). -/
def selectCallMsgs (messages : List ChatMsg) (query : String) (endpoints : List Endpoint) : List ChatMsg :=
  selectSystemMsg :: messages ++ [⟨"user", selectionPrompt query endpoints⟩]

/-- Message list of the formatting call (lines 231–235). -/
def formatCallMsgs (messages : List ChatMsg) (finalData : Json) (language : String) : List ChatMsg :=
  formatSystemMsg :: messages ++ [⟨"user", formatPrompt finalData language⟩]

/-- The normalized failure value of line 242. -/
def normalizedFailure : String :=
  "An error occurred while processing your request. Please try again later."

/-- Everything one `getResponse` call hands back or leaves behind: the
value returned to the caller, the ordered trace of outbound
interactions, the post-call state of the caller's endpoint list, and
the post-call instance state. -/
structure CallOutput where
  result : String
  events : List Event
  endpointsAfter : List Endpoint
  instAfter : ApiInstance

/-- Step 5 of the pipeline (lines 218–239): issue the formatting model
call and return its reply, or the normalized failure value when that
call fails. -/
def formatStage (env : Env) (st : ApiInstance) (model : String) (maxTokens : Int)
    (messages : List ChatMsg) (language : String) (finalData : Json)
    (evs : List Event) (eps : List Endpoint) : CallOutput :=
  let ev := Event.modelCall model (formatCallMsgs messages finalData language) maxTokens
  match env.formatOutcome with
  | .error _ => ⟨normalizedFailure, evs ++ [ev], eps, st⟩
  | .ok s => ⟨s, evs ++ [ev], eps, st⟩

/-- Step 4 of the pipeline (lines 197–216): when a `chain`
sub-descriptor exists, build and issue the chain request (mutating the
chain headers object when a JSON body is attached) and merge its
normalized body under `chainData`. -/
def chainStage (env : Env) (st : ApiInstance) (model : String) (maxTokens : Int)
    (messages : List ChatMsg) (language : String) (data : Json) (e : Endpoint)
    (selName : String) (evs : List Event) (eps : List Endpoint) : CallOutput :=
  match e.chain with
  | none =>
      formatStage env st model maxTokens messages language
        (Json.obj [("productData", Json.arr (wrapList data))]) evs eps
  | some ce =>
      let cr := buildRequest ce
      let eps2 := updateFirst (selPred selName) updChain eps
      let evs2 := evs ++ [Event.httpFetch cr.1]
      match env.chainOutcome with
      | .error _ => ⟨normalizedFailure, evs2, eps2, st⟩
      | .ok cresp =>
          match cresp.jsonBody with
          | .error _ => ⟨normalizedFailure, evs2, eps2, st⟩
          | .ok cdata =>
              formatStage env st model maxTokens messages language
                (Json.obj [("productData", Json.arr (wrapList data)),
                           ("chainData", Json.arr (wrapList cdata))]) evs2 eps2

/-- Steps 2–3 of the pipeline (lines 173–195): build the primary
request (mutating the descriptor's headers object when a JSON body is
attached), fetch it, and parse the body. -/
def fetchStage (env : Env) (st : ApiInstance) (model : String) (maxTokens : Int)
    (messages : List ChatMsg) (language : String) (e : Endpoint)
    (selName : String) (evs : List Event) (eps : List Endpoint) : CallOutput :=
  let pr := buildRequest e.toReqFields
  let eps1 := updateFirst (selPred selName) updHdr eps
  let evs1 := evs ++ [Event.httpFetch pr.1]
  match env.primaryOutcome with
  | .error _ => ⟨normalizedFailure, evs1, eps1, st⟩
  | .ok resp =>
      match resp.jsonBody with
      | .error _ => ⟨normalizedFailure, evs1, eps1, st⟩
      | .ok data => chainStage env st model maxTokens messages language data e selName evs1 eps1

/-- Step 1 of the pipeline (lines 143–169): issue the selection model
call, trim its reply, and match it case-insensitively against the
descriptor names.  Every failure inside the `try` block, including a
missing match, yields the normalized failure value (lines 240–243). -/
def selectStage (env : Env) (st : ApiInstance) (model : String) (maxTokens : Int)
    (query : String) (messages : List ChatMsg) (language : String)
    (eps : List Endpoint) : CallOutput :=
  let ev := Event.modelCall model (selectCallMsgs messages query eps) 50
  match env.selectOutcome with
  | .error _ => ⟨normalizedFailure, [ev], eps, st⟩
  | .ok reply =>
      let selName := jsTrim reply
      match eps.find? (selPred selName) with
      | none => ⟨normalizedFailure, [ev], eps, st⟩
      | some e => fetchStage env st model maxTokens messages language e selName [ev] eps

/-- `ApiTalkChatGPT.getResponse` (lines 133–244).  The argument check of
lines 134–136 happens outside the `try` block, so its failure rejects
the returned promise (`Except.error`); everything after it resolves
(`Except.ok`), the `catch` of lines 240–243 having converted every
pipeline failure to the normalized failure value. -/
def getResponse (st : ApiInstance) (env : Env) (query : String) (eps : List Endpoint)
    (messages : List ChatMsg) (language : String) (opts : Options) :
    Except String CallOutput :=
  if query == "" || eps.isEmpty then
    .error "You must provide a query and a valid list of endpoints."
  else
    .ok (selectStage env st (effModel st opts) (effMaxTokens st opts) query messages language eps)

/-- A JavaScript primitive value, used to model the untyped
`maxTokens` constructor argument. -/
inductive JsVal where
  | num : Int → JsVal
  | str : String → JsVal
  | bool : Bool → JsVal
  | null : JsVal
deriving Repr, DecidableEq

/-- JavaScript truthiness of a primitive value. -/
def JsVal.jsTruthy : JsVal → Bool
  | .num n => n != 0
  | .str s => s != ""
  | .bool b => b
  | .null => false

/-- `typeof v === "number"`. -/
def JsVal.isNumber : JsVal → Bool
  | .num _ => true
  | _ => false

/-- Numeric value of a validated `maxTokens` argument. -/
def JsVal.asNum : JsVal → Int
  | .num n => n
  | _ => 0

/-- The `ApiTalkChatGPT` constructor (lines 103–117).  `none` arguments
are absent destructured fields, replaced by the documented defaults;
`Except.error` is a thrown configuration error. -/
def mkApiTalk (openAIApiKey : Option String) (model : Option String)
    (maxTokens : Option JsVal) : Except String ApiInstance :=
  let model := model.getD "gpt-4"
  let maxTokens := maxTokens.getD (JsVal.num 200)
  if openAIApiKey.getD "" == "" then
    .error "You must provide an OpenAI API Key."
  else if model == "" then
    .error "You must specify an OpenAI model."
  else if !maxTokens.jsTruthy || !maxTokens.isNumber then
    .error "You must specify maxTokens as a number."
  else
    .ok ⟨model, maxTokens.asNum⟩

/-- The HTTP requests of an event trace, in order. -/
def fetchReqs (evs : List Event) : List HttpRequest :=
  evs.filterMap (fun ev => match ev with | .httpFetch r => some r | _ => none)

/-- The (model, max-tokens) pairs of the model calls of a trace, in
order. -/
def modelCallMeta (evs : List Event) : List (String × Int) :=
  evs.filterMap (fun ev => match ev with | .modelCall m _ t => some (m, t) | _ => none)

/-! ## Concrete fixtures used by witnesses and counterexamples -/

/-- A default-configured instance (`model = "gpt-4"`, `maxTokens = 200`). -/
def inst0 : ApiInstance := ⟨"gpt-4", 200⟩

/-- An empty `options` object. -/
def optsNone : Options := ⟨none, none⟩

/-- The `Orders` descriptor of the README, trimmed to the fields the
pipeline reads. -/
def epOrders : Endpoint :=
  ⟨"Orders", "http://localhost:3000/orders", "List of completed orders.",
   ["Show me the recent orders."], Json.obj [("data", Json.arr [])],
   none, none, none, none, none⟩

/-- An environment in which every remote interaction succeeds. -/
def envOk (reply : String) (j : Json) (fmt : String) : Env :=
  ⟨.ok reply, .ok ⟨200, .ok j⟩, .ok ⟨200, .ok (Json.num 1)⟩, .ok fmt⟩

/-- An environment in which every remote interaction fails. -/
def envAllFail : Env := ⟨.error (), .error (), .error (), .error ()⟩

/-- Placeholder output used to project a known-resolved call. -/
def dummyOut : CallOutput := ⟨"", [], [], inst0⟩

/-! ## Result normalization helper lemmas -/

/-- The formatting stage returns the normalized failure value or the
formatting model reply. -/
theorem formatStage_result (env : Env) (st : ApiInstance) (model : String) (mt : Int)
    (msgs : List ChatMsg) (lang : String) (fd : Json) (evs : List Event)
    (eps : List Endpoint) :
    (formatStage env st model mt msgs lang fd evs eps).result = normalizedFailure ∨
      env.formatOutcome = Except.ok (formatStage env st model mt msgs lang fd evs eps).result := by
  unfold formatStage
  cases h : env.formatOutcome with
  | error e => left; simp [h]
  | ok s => right; simp [h]

/-- The chain stage returns the normalized failure value or the
formatting model reply. -/
theorem chainStage_result (env : Env) (st : ApiInstance) (model : String) (mt : Int)
    (msgs : List ChatMsg) (lang : String) (data : Json) (e : Endpoint) (selName : String)
    (evs : List Event) (eps : List Endpoint) :
    (chainStage env st model mt msgs lang data e selName evs eps).result = normalizedFailure ∨
      env.formatOutcome =
        Except.ok (chainStage env st model mt msgs lang data e selName evs eps).result := by
  unfold chainStage
  cases hc : e.chain with
  | none => exact formatStage_result ..
  | some ce =>
    cases ho : env.chainOutcome with
    | error u => left; simp
    | ok cresp =>
      cases hb : cresp.jsonBody with
      | error u => left; simp [hb]
      | ok cdata => simpa [hb] using formatStage_result ..

/-- The fetch stage returns the normalized failure value or the
formatting model reply. -/
theorem fetchStage_result (env : Env) (st : ApiInstance) (model : String) (mt : Int)
    (msgs : List ChatMsg) (lang : String) (e : Endpoint) (selName : String)
    (evs : List Event) (eps : List Endpoint) :
    (fetchStage env st model mt msgs lang e selName evs eps).result = normalizedFailure ∨
      env.formatOutcome =
        Except.ok (fetchStage env st model mt msgs lang e selName evs eps).result := by
  unfold fetchStage
  cases ho : env.primaryOutcome with
  | error u => left; simp
  | ok resp =>
    cases hb : resp.jsonBody with
    | error u => left; simp [hb]
    | ok data => simpa [hb] using chainStage_result ..

/-- The selection stage returns the normalized failure value or the
formatting model reply. -/
theorem selectStage_result (env : Env) (st : ApiInstance) (model : String) (mt : Int)
    (q : String) (msgs : List ChatMsg) (lang : String) (eps : List Endpoint) :
    (selectStage env st model mt q msgs lang eps).result = normalizedFailure ∨
      env.formatOutcome =
        Except.ok (selectStage env st model mt q msgs lang eps).result := by
  unfold selectStage
  cases hs : env.selectOutcome with
  | error u => left; simp
  | ok reply =>
    cases hf : eps.find? (selPred (jsTrim reply)) with
    | none => left; simp [hf]
    | some e => simpa [hf] using fetchStage_result ..

/-- C1: `getResponse` rejects exactly when the argument check of
lines 134–136 fails (empty query or empty endpoint list); with valid
arguments it always resolves, and the resolved value is either the
normalized failure value or the formatting model's reply — no pipeline
failure escapes as an exception. -/
theorem c1_getResponse_throws_iff (st : ApiInstance) (env : Env) (q : String)
    (eps : List Endpoint) (msgs : List ChatMsg) (lang : String) (opts : Options) :
    ((∃ msg, getResponse st env q eps msgs lang opts = Except.error msg) ↔
        (q = "" ∨ eps = [])) ∧
    (∀ o, getResponse st env q eps msgs lang opts = Except.ok o →
        o.result = normalizedFailure ∨ env.formatOutcome = Except.ok o.result) := by
  constructor
  · unfold getResponse
    by_cases h : (q == "" || eps.isEmpty) = true
    · simp only [h, if_true]
      simp only [Bool.or_eq_true, beq_iff_eq, List.isEmpty_iff] at h
      simp [h]
    · simp only [h, if_false]
      simp only [Bool.or_eq_true, beq_iff_eq, List.isEmpty_iff] at h
      push_neg at h
      simp [h.1, h.2]
  · intro o ho
    unfold getResponse at ho
    split at ho
    · exact absurd ho (by simp)
    · rw [show o = selectStage env st (effModel st opts) (effMaxTokens st opts) q msgs lang eps
        from (Except.ok.inj ho).symm]
      exact selectStage_result ..

/-- Output of a concrete all-failing run, used by the C1 witness. -/
def c1Out : CallOutput :=
  (getResponse inst0 envAllFail "q" [epOrders] [] "en" optsNone).toOption.getD dummyOut

/-- C1 witness: at a concrete input with a failing environment, the
call resolves and the conclusion of the theorem holds. -/
theorem c1_witness :
    c1Out.result = normalizedFailure ∨ envAllFail.formatOutcome = Except.ok c1Out.result :=
  (c1_getResponse_throws_iff inst0 envAllFail "q" [epOrders] [] "en" optsNone).2 c1Out rfl

/-! ## Trace shape helper lemmas -/

/-- With valid arguments, `getResponse` resolves with the pipeline
output. -/
theorem getResponse_ok (st : ApiInstance) (env : Env) (q : String) (eps : List Endpoint)
    (msgs : List ChatMsg) (lang : String) (opts : Options) (hq : q ≠ "") (heps : eps ≠ []) :
    getResponse st env q eps msgs lang opts =
      Except.ok (selectStage env st (effModel st opts) (effMaxTokens st opts) q msgs lang eps) := by
  unfold getResponse
  have h1 : (q == "") = false := beq_eq_false_iff_ne.mpr hq
  have h2 : eps.isEmpty = false := by
    cases eps with
    | nil => exact absurd rfl heps
    | cons a as => rfl
  simp [h1, h2]

/-- `fetchReqs` distributes over trace concatenation. -/
theorem fetchReqs_append (a b : List Event) : fetchReqs (a ++ b) = fetchReqs a ++ fetchReqs b :=
  List.filterMap_append ..

/-- A model call contributes no HTTP request. -/
theorem fetchReqs_modelCall (m : String) (ms : List ChatMsg) (t : Int) :
    fetchReqs [Event.modelCall m ms t] = [] := rfl

/-- A fetch event contributes its request. -/
theorem fetchReqs_httpFetch (r : HttpRequest) : fetchReqs [Event.httpFetch r] = [r] := rfl

/-- The formatting stage appends exactly one model-call event. -/
theorem formatStage_events (env : Env) (st : ApiInstance) (model : String) (mt : Int)
    (msgs : List ChatMsg) (lang : String) (fd : Json) (evs : List Event)
    (eps : List Endpoint) :
    (formatStage env st model mt msgs lang fd evs eps).events =
      evs ++ [Event.modelCall model (formatCallMsgs msgs fd lang) mt] := by
  unfold formatStage
  cases h : env.formatOutcome <;> simp [h]

/-- The chain stage issues one fetch when a chain sub-descriptor exists
and none otherwise. -/
theorem chainStage_fetchReqs (env : Env) (st : ApiInstance) (model : String) (mt : Int)
    (msgs : List ChatMsg) (lang : String) (data : Json) (e : Endpoint) (selName : String)
    (evs : List Event) (eps : List Endpoint) :
    fetchReqs (chainStage env st model mt msgs lang data e selName evs eps).events =
      fetchReqs evs ++
        (match e.chain with
         | none => []
         | some ce => [(buildRequest ce).1]) := by
  unfold chainStage
  cases hc : e.chain with
  | none => simp [formatStage_events, fetchReqs_append, fetchReqs_modelCall]
  | some ce =>
    cases ho : env.chainOutcome with
    | error u => simp [fetchReqs_append, fetchReqs_httpFetch]
    | ok cresp =>
      cases hb : cresp.jsonBody with
      | error u => simp [hb, fetchReqs_append, fetchReqs_httpFetch]
      | ok cdata =>
        simp [hb, formatStage_events, fetchReqs_append, fetchReqs]

/-- Once a descriptor is selected, the first HTTP request issued is the
one built from that descriptor. -/
theorem fetchStage_fetchReqs (env : Env) (st : ApiInstance) (model : String) (mt : Int)
    (msgs : List ChatMsg) (lang : String) (e : Endpoint) (selName : String)
    (evs : List Event) (eps : List Endpoint) :
    ∃ rest, fetchReqs (fetchStage env st model mt msgs lang e selName evs eps).events =
      fetchReqs evs ++ (buildRequest e.toReqFields).1 :: rest := by
  unfold fetchStage
  cases ho : env.primaryOutcome with
  | error u => exact ⟨[], by simp [fetchReqs_append, fetchReqs_httpFetch]⟩
  | ok resp =>
    cases hb : resp.jsonBody with
    | error u => exact ⟨[], by simp [hb, fetchReqs_append, fetchReqs_httpFetch]⟩
    | ok data =>
      refine ⟨(match e.chain with
               | none => []
               | some ce => [(buildRequest ce).1]), ?_⟩
      simp [hb, chainStage_fetchReqs, fetchReqs_append, fetchReqs_httpFetch]

/-- C2: when the trimmed model reply matches a descriptor name
case-insensitively, that descriptor is the one fetched (the first HTTP
request is built from it); when no descriptor matches, the call
resolves with the normalized failure value and no HTTP fetch occurs. -/
theorem c2_case_insensitive_selection (st : ApiInstance) (env : Env) (q : String)
    (eps : List Endpoint) (msgs : List ChatMsg) (lang : String) (opts : Options)
    (reply : String) (hq : q ≠ "") (heps : eps ≠ [])
    (hsel : env.selectOutcome = Except.ok reply) :
    (∀ e, eps.find? (selPred (jsTrim reply)) = some e →
      ∀ o, getResponse st env q eps msgs lang opts = Except.ok o →
        (fetchReqs o.events).head? = some (buildRequest e.toReqFields).1) ∧
    (eps.find? (selPred (jsTrim reply)) = none →
      ∀ o, getResponse st env q eps msgs lang opts = Except.ok o →
        o.result = normalizedFailure ∧ fetchReqs o.events = []) := by
  have hg := getResponse_ok st env q eps msgs lang opts hq heps
  constructor
  · intro e hfind o ho
    rw [hg] at ho
    obtain rfl : selectStage env st (effModel st opts) (effMaxTokens st opts) q msgs lang eps = o :=
      Except.ok.inj ho
    unfold selectStage
    rw [hsel]
    simp only [hfind]
    obtain ⟨rest, hr⟩ := fetchStage_fetchReqs env st (effModel st opts) (effMaxTokens st opts)
      msgs lang e (jsTrim reply)
      [Event.modelCall (effModel st opts) (selectCallMsgs msgs q eps) 50] eps
    rw [hr]
    simp [fetchReqs_modelCall]
  · intro hfind o ho
    rw [hg] at ho
    obtain rfl : selectStage env st (effModel st opts) (effMaxTokens st opts) q msgs lang eps = o :=
      Except.ok.inj ho
    unfold selectStage
    rw [hsel]
    simp [hfind, fetchReqs_modelCall]

/-- Environment of the C2 witness: the model replies with an
upper-case, padded variant of the `Orders` name. -/
def env2 : Env := envOk " ORDERS " (Json.num 5) "done"

/-- Output of the concrete C2 run. -/
def c2Out : CallOutput :=
  (getResponse inst0 env2 "q" [epOrders] [] "en" optsNone).toOption.getD dummyOut

/-- C2 witness: the reply " ORDERS " selects the descriptor named
"Orders", and the first HTTP request is built from it. -/
theorem c2_witness :
    (fetchReqs c2Out.events).head? = some (buildRequest epOrders.toReqFields).1 :=
  (c2_case_insensitive_selection inst0 env2 "q" [epOrders] [] "en" optsNone " ORDERS "
    (by decide) (List.cons_ne_nil _ _) rfl).1 epOrders rfl c2Out rfl

/-- C3: with a chain sub-descriptor and an all-successful environment,
the trace is exactly selection call, primary fetch, chain fetch,
formatting call — the chain fetch strictly after the primary fetch —
and the formatting payload holds the normalized primary result under
`productData` and the normalized chain result under `chainData` as
distinct fields; when the primary fetch rejects or its body fails to
parse, no chain request is ever issued. -/
theorem c3_chain_payload_and_order (st : ApiInstance) (env : Env) (q : String)
    (eps : List Endpoint) (msgs : List ChatMsg) (lang : String) (opts : Options)
    (reply : String) (e : Endpoint) (ce : ReqFields)
    (hq : q ≠ "") (heps : eps ≠ [])
    (hsel : env.selectOutcome = Except.ok reply)
    (hfind : eps.find? (selPred (jsTrim reply)) = some e)
    (hchain : e.chain = some ce) :
    (∀ resp data cresp cdata,
      env.primaryOutcome = Except.ok resp → resp.jsonBody = Except.ok data →
      env.chainOutcome = Except.ok cresp → cresp.jsonBody = Except.ok cdata →
      ∀ o, getResponse st env q eps msgs lang opts = Except.ok o →
        o.events =
          [Event.modelCall (effModel st opts) (selectCallMsgs msgs q eps) 50,
           Event.httpFetch (buildRequest e.toReqFields).1,
           Event.httpFetch (buildRequest ce).1,
           Event.modelCall (effModel st opts)
             (formatCallMsgs msgs
               (Json.obj [("productData", Json.arr (wrapList data)),
                          ("chainData", Json.arr (wrapList cdata))]) lang)
             (effMaxTokens st opts)]) ∧
    ((env.primaryOutcome = Except.error () ∨
      ∃ resp, env.primaryOutcome = Except.ok resp ∧ resp.jsonBody = Except.error ()) →
      ∀ o, getResponse st env q eps msgs lang opts = Except.ok o →
        fetchReqs o.events = [(buildRequest e.toReqFields).1]) := by
  have hg := getResponse_ok st env q eps msgs lang opts hq heps
  constructor
  · intro resp data cresp cdata hp hb hc hcb o ho
    rw [hg] at ho
    obtain rfl : selectStage env st (effModel st opts) (effMaxTokens st opts) q msgs lang eps = o :=
      Except.ok.inj ho
    unfold selectStage
    rw [hsel]
    simp only [hfind]
    unfold fetchStage
    rw [hp]
    simp only [hb]
    unfold chainStage
    rw [hchain, hc]
    simp only [hcb]
    rw [formatStage_events]
    simp
  · intro hfail o ho
    rw [hg] at ho
    obtain rfl : selectStage env st (effModel st opts) (effMaxTokens st opts) q msgs lang eps = o :=
      Except.ok.inj ho
    unfold selectStage
    rw [hsel]
    simp only [hfind]
    unfold fetchStage
    rcases hfail with hp | ⟨resp, hp, hb⟩
    · rw [hp]
      simp [fetchReqs_append, fetchReqs]
    · rw [hp]
      simp only [hb]
      simp [fetchReqs_append, fetchReqs]

/-- The chain sub-descriptor of the C3 witness (the README pricing
example). -/
def chainFields : ReqFields :=
  ⟨"http://localhost:3000/prices", some "GET", none, some [("currency", "USD")], none⟩

/-- A descriptor with a chain sub-descriptor. -/
def epChain : Endpoint :=
  ⟨"ProductInfo", "http://localhost:3000/products", "Retrieves product information.",
   ["Get product details."], Json.obj [("data", Json.arr [])],
   none, none, none, none, some chainFields⟩

/-- Environment of the C3 witness: both fetches succeed. -/
def env3 : Env :=
  ⟨.ok "productinfo", .ok ⟨200, .ok (Json.num 7)⟩, .ok ⟨200, .ok (Json.arr [Json.num 9])⟩, .ok "ok"⟩

/-- Output of the concrete C3 run. -/
def c3Out : CallOutput :=
  (getResponse inst0 env3 "q" [epChain] [] "en" optsNone).toOption.getD dummyOut

/-- C3 witness: the concrete run produces the four-event trace with the
two-field payload. -/
theorem c3_witness :
    c3Out.events =
      [Event.modelCall (effModel inst0 optsNone) (selectCallMsgs [] "q" [epChain]) 50,
       Event.httpFetch (buildRequest epChain.toReqFields).1,
       Event.httpFetch (buildRequest chainFields).1,
       Event.modelCall (effModel inst0 optsNone)
         (formatCallMsgs []
           (Json.obj [("productData", Json.arr (wrapList (Json.num 7))),
                      ("chainData", Json.arr (wrapList (Json.arr [Json.num 9])))]) "en")
         (effMaxTokens inst0 optsNone)] :=
  (c3_chain_payload_and_order inst0 env3 "q" [epChain] [] "en" optsNone "productinfo" epChain
    chainFields (by decide) (List.cons_ne_nil _ _) rfl rfl rfl).1
    ⟨200, .ok (Json.num 7)⟩ (Json.num 7) ⟨200, .ok (Json.arr [Json.num 9])⟩
    (Json.arr [Json.num 9]) rfl rfl rfl rfl c3Out rfl

/-- The URL of a built request is the descriptor's URL with the query
string appended per `buildUrl`. -/
theorem buildRequest_url (f : ReqFields) : (buildRequest f).1.url = buildUrl f.url f.query := by
  unfold buildRequest
  cases hb : f.body with
  | none => rfl
  | some b =>
    simp only
    split <;> rfl

/-- C4: the first HTTP request of the call is built from the selected
descriptor, and its URL is the descriptor's base URL with the
URL-encoded query parameters appended — joined with an ampersand when
the base URL already contains a question mark and with a question mark
otherwise — or the base URL unchanged when no query mapping exists. -/
theorem c4_url_construction (st : ApiInstance) (env : Env) (q : String)
    (eps : List Endpoint) (msgs : List ChatMsg) (lang : String) (opts : Options)
    (reply : String) (e : Endpoint)
    (hq : q ≠ "") (heps : eps ≠ [])
    (hsel : env.selectOutcome = Except.ok reply)
    (hfind : eps.find? (selPred (jsTrim reply)) = some e) :
    ∀ o, getResponse st env q eps msgs lang opts = Except.ok o →
      (fetchReqs o.events).head? = some (buildRequest e.toReqFields).1 ∧
      (buildRequest e.toReqFields).1.url =
        (match e.query with
         | some qs => e.url ++ (if jsIncludesChar e.url '?' then "&" else "?") ++ encodeParams qs
         | none => e.url) := by
  intro o ho
  refine ⟨(c2_case_insensitive_selection st env q eps msgs lang opts reply hq heps hsel).1
    e hfind o ho, ?_⟩
  rw [buildRequest_url]
  unfold buildUrl
  cases hqr : e.query <;> simp [Endpoint.toReqFields, hqr]

/-- A descriptor whose base URL already carries a query string and
which supplies query parameters needing URL-encoding. -/
def epQuery : Endpoint :=
  ⟨"Search", "http://localhost:3000/search?page=1", "Searches the catalog.",
   ["Find products."], Json.obj [("data", Json.arr [])],
   none, none, some [("q", "red shoes"), ("max", "10")], none, none⟩

/-- Environment of the C4 witness. -/
def env4 : Env := envOk "SEARCH" (Json.num 2) "done"

/-- Output of the concrete C4 run. -/
def c4Out : CallOutput :=
  (getResponse inst0 env4 "q" [epQuery] [] "en" optsNone).toOption.getD dummyOut

/-- C4 witness: at the concrete descriptor the issued request URL is
the base URL joined to the encoded parameters with an ampersand. -/
theorem c4_witness :
    (fetchReqs c4Out.events).head? = some (buildRequest epQuery.toReqFields).1 ∧
    (buildRequest epQuery.toReqFields).1.url =
      (match epQuery.query with
       | some qs =>
           epQuery.url ++ (if jsIncludesChar epQuery.url '?' then "&" else "?") ++ encodeParams qs
       | none => epQuery.url) :=
  c4_url_construction inst0 env4 "q" [epQuery] [] "en" optsNone "SEARCH" epQuery
    (by decide) (List.cons_ne_nil _ _) rfl rfl c4Out rfl

/-- Assigning a header always leaves the pair in the map. -/
theorem mem_setHeader (hs : List (String × String)) (k v : String) :
    (k, v) ∈ setHeader hs k v := by
  unfold setHeader
  split
  · rename_i h
    rw [List.any_eq_true] at h
    obtain ⟨p, hp, hpk⟩ := h
    exact List.mem_map.mpr ⟨p, hp, by rw [if_pos hpk]⟩
  · exact List.mem_append_right _ (List.mem_singleton.mpr rfl)

/-- When the descriptor defines a truthy body and a non-GET method, the
built request carries the serialized body and the JSON content type. -/
theorem buildRequest_body_attach (f : ReqFields) (b : Json) (hb : f.body = some b)
    (ht : b.jsTruthy = true) (hm : jsToUpper (jsMethodDefault f.method) ≠ "GET") :
    (buildRequest f).1.body = some (Json.stringify b) ∧
      ("Content-Type", "application/json") ∈ (buildRequest f).1.headers := by
  have hcond : (b.jsTruthy && (jsToUpper (jsMethodDefault f.method) != "GET")) = true := by
    simp [ht, hm]
  unfold buildRequest
  rw [hb]
  simp only [hcond, if_true]
  exact ⟨trivial, mem_setHeader ..⟩

/-- When the effective method is GET, the built request carries no
body. -/
theorem buildRequest_body_get (f : ReqFields) (hm : jsToUpper (jsMethodDefault f.method) = "GET") :
    (buildRequest f).1.body = none := by
  unfold buildRequest
  cases hb : f.body with
  | none => rfl
  | some b =>
    have hcond : (b.jsTruthy && (jsToUpper (jsMethodDefault f.method) != "GET")) = false := by
      simp [hm]
    simp [hcond]

/-- A descriptor with a POST method and a defined-but-falsy body
(`body: false`), exhibiting the body-attachment condition of line 185. -/
def epFalsyBody : Endpoint :=
  ⟨"Create", "http://localhost:3000/items", "Creates an item.",
   ["Add an item."], Json.obj [("data", Json.arr [])],
   some "POST", none, none, some (Json.bool false), none⟩

/-- Environment of the C5 counterexample run. -/
def env5 : Env := envOk "create" (Json.num 1) "done"

/-- Output of the concrete C5 counterexample run. -/
def c5Out : CallOutput :=
  (getResponse inst0 env5 "q" [epFalsyBody] [] "en" optsNone).toOption.getD dummyOut

/-- C5 counterexample: the selected descriptor has method POST and a
defined body, yet the outbound request carries no body and no
`Content-Type` header, because line 185 tests the body for truthiness
and `false` is falsy. -/
theorem c5_counterexample :
    epFalsyBody.method = some "POST" ∧ epFalsyBody.body = some (Json.bool false) ∧
    (fetchReqs c5Out.events).head? =
      some ⟨"http://localhost:3000/items", "POST", [], none⟩ :=
  ⟨rfl, rfl, rfl⟩

/-- C5 (amended): for the selected descriptor, a truthy body together
with a non-GET effective method yields a request carrying the
JSON-serialized body and a `Content-Type: application/json` header,
while a GET effective method (explicit, by default, or in any letter
case) yields a request with no body even when a body is defined. -/
theorem c5_body_attachment (st : ApiInstance) (env : Env) (q : String)
    (eps : List Endpoint) (msgs : List ChatMsg) (lang : String) (opts : Options)
    (reply : String) (e : Endpoint)
    (hq : q ≠ "") (heps : eps ≠ [])
    (hsel : env.selectOutcome = Except.ok reply)
    (hfind : eps.find? (selPred (jsTrim reply)) = some e) :
    ∀ o, getResponse st env q eps msgs lang opts = Except.ok o →
      (fetchReqs o.events).head? = some (buildRequest e.toReqFields).1 ∧
      (∀ b, e.body = some b → b.jsTruthy = true →
        jsToUpper (jsMethodDefault e.method) ≠ "GET" →
        (buildRequest e.toReqFields).1.body = some (Json.stringify b) ∧
          ("Content-Type", "application/json") ∈ (buildRequest e.toReqFields).1.headers) ∧
      (jsToUpper (jsMethodDefault e.method) = "GET" →
        (buildRequest e.toReqFields).1.body = none) := by
  intro o ho
  refine ⟨(c2_case_insensitive_selection st env q eps msgs lang opts reply hq heps hsel).1
    e hfind o ho, fun b hb ht hm => ?_, fun hm => ?_⟩
  · exact buildRequest_body_attach e.toReqFields b hb ht hm
  · exact buildRequest_body_get e.toReqFields hm

/-- A descriptor with a POST method and a truthy JSON body. -/
def epPost : Endpoint :=
  ⟨"Create", "http://localhost:3000/items", "Creates an item.",
   ["Add an item."], Json.obj [("data", Json.arr [])],
   some "post", some [("Authorization", "Bearer token")], none,
   some (Json.obj [("a", Json.num 1)]), none⟩

/-- Environment of the C5 witness run. -/
def env5b : Env := envOk "CREATE" (Json.num 1) "done"

/-- Output of the concrete C5 witness run. -/
def c5bOut : CallOutput :=
  (getResponse inst0 env5b "q" [epPost] [] "en" optsNone).toOption.getD dummyOut

/-- C5 witness: at the concrete POST descriptor with a truthy body, the
issued request carries the serialized body and the JSON content
type. -/
theorem c5_witness :
    (buildRequest epPost.toReqFields).1.body =
      some (Json.stringify (Json.obj [("a", Json.num 1)])) ∧
    ("Content-Type", "application/json") ∈ (buildRequest epPost.toReqFields).1.headers :=
  ((c5_body_attachment inst0 env5b "q" [epPost] [] "en" optsNone "CREATE" epPost
    (by decide) (List.cons_ne_nil _ _) rfl rfl) c5bOut rfl).2.1
    (Json.obj [("a", Json.num 1)]) rfl rfl (by decide)

/-- C6: the JSON body of each successful fetch is merged into the
formatting payload through `wrapList`, which passes a list body through
unchanged and wraps any non-list body into a singleton list — visible
as the `productData` (and `chainData`) fields of the final model-call
message. -/
theorem c6_wrap_normalization (st : ApiInstance) (env : Env) (q : String)
    (eps : List Endpoint) (msgs : List ChatMsg) (lang : String) (opts : Options)
    (reply : String) (e : Endpoint)
    (hq : q ≠ "") (heps : eps ≠ [])
    (hsel : env.selectOutcome = Except.ok reply)
    (hfind : eps.find? (selPred (jsTrim reply)) = some e) :
    (∀ resp data, e.chain = none →
      env.primaryOutcome = Except.ok resp → resp.jsonBody = Except.ok data →
      ∀ o, getResponse st env q eps msgs lang opts = Except.ok o →
        o.events.getLast? = some (Event.modelCall (effModel st opts)
          (formatCallMsgs msgs (Json.obj [("productData", Json.arr (wrapList data))]) lang)
          (effMaxTokens st opts))) ∧
    (∀ ce resp data cresp cdata, e.chain = some ce →
      env.primaryOutcome = Except.ok resp → resp.jsonBody = Except.ok data →
      env.chainOutcome = Except.ok cresp → cresp.jsonBody = Except.ok cdata →
      ∀ o, getResponse st env q eps msgs lang opts = Except.ok o →
        o.events.getLast? = some (Event.modelCall (effModel st opts)
          (formatCallMsgs msgs
            (Json.obj [("productData", Json.arr (wrapList data)),
                       ("chainData", Json.arr (wrapList cdata))]) lang)
          (effMaxTokens st opts))) ∧
    (∀ l, wrapList (Json.arr l) = l) ∧
    (∀ j, (∀ l, j ≠ Json.arr l) → wrapList j = [j]) := by
  have hg := getResponse_ok st env q eps msgs lang opts hq heps
  refine ⟨?_, ?_, fun l => rfl, fun j hj => ?_⟩
  · intro resp data hchain hp hb o ho
    rw [hg] at ho
    obtain rfl : selectStage env st (effModel st opts) (effMaxTokens st opts) q msgs lang eps = o :=
      Except.ok.inj ho
    unfold selectStage
    rw [hsel]
    simp only [hfind]
    unfold fetchStage
    rw [hp]
    simp only [hb]
    unfold chainStage
    rw [hchain]
    rw [formatStage_events]
    simp [List.getLast?_concat]
  · intro ce resp data cresp cdata hchain hp hb hc hcb o ho
    rw [hg] at ho
    obtain rfl : selectStage env st (effModel st opts) (effMaxTokens st opts) q msgs lang eps = o :=
      Except.ok.inj ho
    unfold selectStage
    rw [hsel]
    simp only [hfind]
    unfold fetchStage
    rw [hp]
    simp only [hb]
    unfold chainStage
    rw [hchain, hc]
    simp only [hcb]
    rw [formatStage_events]
    simp [List.getLast?_concat]
  · cases j with
    | arr l => exact absurd rfl (hj l)
    | null => rfl
    | bool b => rfl
    | num n => rfl
    | str s => rfl
    | obj fs => rfl

/-- Environment of the C6 witness: the primary fetch returns a single
JSON object (not a list). -/
def env6 : Env := envOk "orders" (Json.obj [("id", Json.num 1)]) "fine"

/-- Output of the concrete C6 run. -/
def c6Out : CallOutput :=
  (getResponse inst0 env6 "q" [epOrders] [] "en" optsNone).toOption.getD dummyOut

/-- C6 witness: a single-object body reaches the formatting payload
wrapped in a singleton list, and that wrapping is the singleton
wrap. -/
theorem c6_witness :
    c6Out.events.getLast? = some (Event.modelCall (effModel inst0 optsNone)
      (formatCallMsgs []
        (Json.obj [("productData", Json.arr (wrapList (Json.obj [("id", Json.num 1)])))]) "en")
      (effMaxTokens inst0 optsNone)) ∧
    wrapList (Json.obj [("id", Json.num 1)]) = [Json.obj [("id", Json.num 1)]] :=
  ⟨(c6_wrap_normalization inst0 env6 "q" [epOrders] [] "en" optsNone "orders" epOrders
      (by decide) (List.cons_ne_nil _ _) rfl rfl).1
      ⟨200, .ok (Json.obj [("id", Json.num 1)])⟩ (Json.obj [("id", Json.num 1)]) rfl rfl rfl
      c6Out rfl,
   (c6_wrap_normalization inst0 env6 "q" [epOrders] [] "en" optsNone "orders" epOrders
      (by decide) (List.cons_ne_nil _ _) rfl rfl).2.2.2
      (Json.obj [("id", Json.num 1)]) (fun l h => Json.noConfusion h)⟩

/-- The formatting stage never touches the instance state. -/
theorem formatStage_instAfter (env : Env) (st : ApiInstance) (model : String) (mt : Int)
    (msgs : List ChatMsg) (lang : String) (fd : Json) (evs : List Event)
    (eps : List Endpoint) :
    (formatStage env st model mt msgs lang fd evs eps).instAfter = st := by
  unfold formatStage
  cases h : env.formatOutcome <;> simp [h]

/-- The chain stage never touches the instance state. -/
theorem chainStage_instAfter (env : Env) (st : ApiInstance) (model : String) (mt : Int)
    (msgs : List ChatMsg) (lang : String) (data : Json) (e : Endpoint) (selName : String)
    (evs : List Event) (eps : List Endpoint) :
    (chainStage env st model mt msgs lang data e selName evs eps).instAfter = st := by
  unfold chainStage
  cases hc : e.chain with
  | none => exact formatStage_instAfter ..
  | some ce =>
    cases ho : env.chainOutcome with
    | error u => simp
    | ok cresp =>
      cases hb : cresp.jsonBody with
      | error u => simp [hb]
      | ok cdata => simpa [hb] using formatStage_instAfter ..

/-- The fetch stage never touches the instance state. -/
theorem fetchStage_instAfter (env : Env) (st : ApiInstance) (model : String) (mt : Int)
    (msgs : List ChatMsg) (lang : String) (e : Endpoint) (selName : String)
    (evs : List Event) (eps : List Endpoint) :
    (fetchStage env st model mt msgs lang e selName evs eps).instAfter = st := by
  unfold fetchStage
  cases ho : env.primaryOutcome with
  | error u => simp
  | ok resp =>
    cases hb : resp.jsonBody with
    | error u => simp [hb]
    | ok data => simpa [hb] using chainStage_instAfter ..

/-- The selection stage never touches the instance state. -/
theorem selectStage_instAfter (env : Env) (st : ApiInstance) (model : String) (mt : Int)
    (q : String) (msgs : List ChatMsg) (lang : String) (eps : List Endpoint) :
    (selectStage env st model mt q msgs lang eps).instAfter = st := by
  unfold selectStage
  cases hs : env.selectOutcome with
  | error u => simp
  | ok reply =>
    cases hf : eps.find? (selPred (jsTrim reply)) with
    | none => simp [hf]
    | some e => simpa [hf] using fetchStage_instAfter ..

/-- `modelCallMeta` distributes over trace concatenation. -/
theorem modelCallMeta_append (a b : List Event) :
    modelCallMeta (a ++ b) = modelCallMeta a ++ modelCallMeta b :=
  List.filterMap_append ..

/-- The model calls of a trace after the formatting stage are those of
the prefix followed by the formatting call. -/
theorem formatStage_modelCallMeta (env : Env) (st : ApiInstance) (model : String) (mt : Int)
    (msgs : List ChatMsg) (lang : String) (fd : Json) (evs : List Event)
    (eps : List Endpoint) :
    modelCallMeta (formatStage env st model mt msgs lang fd evs eps).events =
      modelCallMeta evs ++ [(model, mt)] := by
  rw [formatStage_events, modelCallMeta_append]
  rfl

/-- The chain stage adds the formatting call's metadata or nothing. -/
theorem chainStage_modelCallMeta (env : Env) (st : ApiInstance) (model : String) (mt : Int)
    (msgs : List ChatMsg) (lang : String) (data : Json) (e : Endpoint) (selName : String)
    (evs : List Event) (eps : List Endpoint) :
    modelCallMeta (chainStage env st model mt msgs lang data e selName evs eps).events =
        modelCallMeta evs ∨
      modelCallMeta (chainStage env st model mt msgs lang data e selName evs eps).events =
        modelCallMeta evs ++ [(model, mt)] := by
  unfold chainStage
  cases hc : e.chain with
  | none => right; rw [formatStage_modelCallMeta]
  | some ce =>
    cases ho : env.chainOutcome with
    | error u => left; simp [modelCallMeta_append, modelCallMeta]
    | ok cresp =>
      cases hb : cresp.jsonBody with
      | error u => left; simp [hb, modelCallMeta_append, modelCallMeta]
      | ok cdata =>
        right
        simp only [hb]
        rw [formatStage_modelCallMeta, modelCallMeta_append]
        simp [modelCallMeta]

/-- The fetch stage adds the formatting call's metadata or nothing. -/
theorem fetchStage_modelCallMeta (env : Env) (st : ApiInstance) (model : String) (mt : Int)
    (msgs : List ChatMsg) (lang : String) (e : Endpoint) (selName : String)
    (evs : List Event) (eps : List Endpoint) :
    modelCallMeta (fetchStage env st model mt msgs lang e selName evs eps).events =
        modelCallMeta evs ∨
      modelCallMeta (fetchStage env st model mt msgs lang e selName evs eps).events =
        modelCallMeta evs ++ [(model, mt)] := by
  unfold fetchStage
  cases ho : env.primaryOutcome with
  | error u => left; simp [modelCallMeta_append, modelCallMeta]
  | ok resp =>
    cases hb : resp.jsonBody with
    | error u => left; simp [hb, modelCallMeta_append, modelCallMeta]
    | ok data =>
      simp only [hb]
      have h := chainStage_modelCallMeta env st model mt msgs lang data e selName
        (evs ++ [Event.httpFetch (buildRequest e.toReqFields).1])
        (updateFirst (selPred selName) updHdr eps)
      rcases h with h | h <;> rw [h] <;> simp [modelCallMeta_append, modelCallMeta]

/-- The model calls of a full pipeline run: the selection call with a
hard-coded 50-token budget, optionally followed by the formatting call
with the effective token budget. -/
theorem selectStage_modelCallMeta (env : Env) (st : ApiInstance) (model : String) (mt : Int)
    (q : String) (msgs : List ChatMsg) (lang : String) (eps : List Endpoint) :
    modelCallMeta (selectStage env st model mt q msgs lang eps).events = [(model, 50)] ∨
      modelCallMeta (selectStage env st model mt q msgs lang eps).events =
        [(model, 50), (model, mt)] := by
  unfold selectStage
  cases hs : env.selectOutcome with
  | error u => left; simp [modelCallMeta]
  | ok reply =>
    cases hf : eps.find? (selPred (jsTrim reply)) with
    | none => left; simp [hf, modelCallMeta]
    | some e =>
      simp only [hf]
      have h := fetchStage_modelCallMeta env st model mt msgs lang e (jsTrim reply)
        [Event.modelCall model (selectCallMsgs msgs q eps) 50] eps
      rcases h with h | h <;> rw [h] <;> simp [modelCallMeta]

/-- The per-call `options` of the C7 counterexample: a supplied empty
model string and a supplied max-token budget of 77. -/
def opts7 : Options := ⟨some "", some 77⟩

/-- Environment of the C7 counterexample run. -/
def env7 : Env := envOk "orders" (Json.num 5) "done"

/-- Output of the concrete C7 counterexample run. -/
def c7Out : CallOutput :=
  (getResponse inst0 env7 "q" [epOrders] [] "en" opts7).toOption.getD dummyOut

/-- C7 counterexample: `options.model` and `options.maxTokens` are both
supplied, yet neither supplied value is used for both model calls — the
supplied empty model string falls back to the instance default
(line 139 uses JavaScript or-fallback), and the supplied 77-token
budget is not used for the selection call, whose budget is the
hard-coded 50. -/
theorem c7_counterexample :
    opts7.model = some "" ∧ opts7.maxTokens = some 77 ∧ inst0.model = "gpt-4" ∧
    modelCallMeta c7Out.events = [("gpt-4", 50), ("gpt-4", 77)] :=
  ⟨rfl, rfl, rfl, rfl⟩

/-- C7 (amended): a supplied non-empty `options.model` is the model of
every model call of that call, a supplied non-zero `options.maxTokens`
is the token budget of the formatting call (the selection call always
uses 50), and the instance's stored defaults are unchanged by the
call. -/
theorem c7_override (st : ApiInstance) (env : Env) (q : String) (eps : List Endpoint)
    (msgs : List ChatMsg) (lang : String) (opts : Options) (m : String) (n : Int)
    (hq : q ≠ "") (heps : eps ≠ [])
    (hm : opts.model = some m) (hm0 : m ≠ "")
    (ht : opts.maxTokens = some n) (hn0 : n ≠ 0) :
    ∀ o, getResponse st env q eps msgs lang opts = Except.ok o →
      o.instAfter = st ∧
      (modelCallMeta o.events = [(m, 50)] ∨ modelCallMeta o.events = [(m, 50), (m, n)]) := by
  intro o ho
  have hem : effModel st opts = m := by
    simp [effModel, hm, hm0]
  have het : effMaxTokens st opts = n := by
    simp [effMaxTokens, ht, hn0]
  rw [getResponse_ok st env q eps msgs lang opts hq heps] at ho
  obtain rfl : selectStage env st (effModel st opts) (effMaxTokens st opts) q msgs lang eps = o :=
    Except.ok.inj ho
  rw [hem, het]
  exact ⟨selectStage_instAfter .., selectStage_modelCallMeta ..⟩

/-- The per-call `options` of the C7 witness: truthy overrides. -/
def opts7b : Options := ⟨some "gpt-3.5-turbo", some 150⟩

/-- Environment of the C7 witness run. -/
def env7b : Env := envOk "orders" (Json.num 5) "done"

/-- Output of the concrete C7 witness run. -/
def c7bOut : CallOutput :=
  (getResponse inst0 env7b "q" [epOrders] [] "en" opts7b).toOption.getD dummyOut

/-- C7 witness: truthy overrides are used — the override model in both
calls, the override budget in the formatting call — and the instance
state is unchanged. -/
theorem c7_witness :
    c7bOut.instAfter = inst0 ∧
    (modelCallMeta c7bOut.events = [("gpt-3.5-turbo", 50)] ∨
      modelCallMeta c7bOut.events = [("gpt-3.5-turbo", 50), ("gpt-3.5-turbo", 150)]) :=
  c7_override inst0 env7b "q" [epOrders] [] "en" opts7b "gpt-3.5-turbo" 150
    (by decide) (List.cons_ne_nil _ _) rfl (by decide) rfl (by decide) c7bOut rfl

/-- Whether an `Except` computation succeeded. -/
def isOkB {ε α : Type} : Except ε α → Bool
  | .ok _ => true
  | .error _ => false

/-- A validated `maxTokens` argument is a number and round-trips
through its numeric value. -/
theorem jsval_num_asNum (v : JsVal) (h : v.isNumber = true) : JsVal.num v.asNum = v := by
  cases v <;> simp_all [JsVal.isNumber, JsVal.asNum]

/-- The `maxTokens` guard of line 110 rejects exactly the values that
are zero or not numbers. -/
theorem jsval_guard_iff (v : JsVal) :
    ((!v.jsTruthy || !v.isNumber) = true) ↔ (∀ n : Int, n ≠ 0 → v ≠ JsVal.num n) := by
  cases v with
  | num x =>
    constructor
    · intro h n hn hEq
      obtain rfl : x = n := JsVal.num.inj hEq
      simp [JsVal.jsTruthy, JsVal.isNumber] at h
      exact hn h
    · intro h
      have hx : x = 0 := by
        by_contra hx
        exact h x hx rfl
      subst hx
      simp [JsVal.jsTruthy, JsVal.isNumber]
  | str s =>
    exact ⟨fun _ n _ hEq => JsVal.noConfusion hEq,
      fun _ => by simp [JsVal.jsTruthy, JsVal.isNumber]⟩
  | bool b =>
    exact ⟨fun _ n _ hEq => JsVal.noConfusion hEq,
      fun _ => by simp [JsVal.jsTruthy, JsVal.isNumber]⟩
  | null =>
    exact ⟨fun _ n _ hEq => JsVal.noConfusion hEq,
      fun _ => by simp [JsVal.jsTruthy, JsVal.isNumber]⟩

/-- The key guard of line 104 rejects an absent key and an empty
key. -/
theorem key_guard_iff (k : Option String) :
    ((k.getD "" == "") = true) ↔ (k = none ∨ k = some "") := by
  cases k with
  | none => simp
  | some s => simp

/-- C8 counterexample: construction succeeds with the negative token
budget −5 (the guard of line 110 only rejects falsy or non-number
values), and fails with a present-but-empty API key — both contradict
"fails exactly when the key is absent, the model empty, or maxTokens
not a positive number". -/
theorem c8_counterexample :
    isOkB (mkApiTalk (some "key") (some "gpt-4") (some (JsVal.num (-5)))) = true ∧
    isOkB (mkApiTalk (some "") (some "gpt-4") (some (JsVal.num 100))) = false :=
  ⟨rfl, rfl⟩

/-- C8 (amended): construction fails exactly when the API key is absent
or empty, the effective model is empty, or the effective `maxTokens` is
zero or not a number; on success the instance stores the given (or
default) model and `maxTokens`. -/
theorem c8_construction (k : Option String) (m : Option String) (t : Option JsVal) :
    (isOkB (mkApiTalk k m t) = false ↔
      (k = none ∨ k = some "" ∨ m.getD "gpt-4" = "" ∨
        ∀ n : Int, n ≠ 0 → t.getD (JsVal.num 200) ≠ JsVal.num n)) ∧
    (∀ inst, mkApiTalk k m t = Except.ok inst →
      inst.model = m.getD "gpt-4" ∧ JsVal.num inst.maxTokens = t.getD (JsVal.num 200)) := by
  constructor
  · simp only [mkApiTalk]
    by_cases h1 : (k.getD "" == "") = true
    · rw [if_pos h1]
      simp only [isOkB]
      constructor
      · intro _
        rcases (key_guard_iff k).mp h1 with h | h
        · exact Or.inl h
        · exact Or.inr (Or.inl h)
      · intro _; trivial
    · rw [if_neg h1]
      by_cases h2 : (m.getD "gpt-4" == "") = true
      · rw [if_pos h2]
        simp only [isOkB]
        exact ⟨fun _ => Or.inr (Or.inr (Or.inl (by simpa using h2))), fun _ => trivial⟩
      · rw [if_neg h2]
        by_cases h3 : ((!(t.getD (JsVal.num 200)).jsTruthy ||
            !(t.getD (JsVal.num 200)).isNumber) = true)
        · rw [if_pos h3]
          simp only [isOkB]
          exact ⟨fun _ => Or.inr (Or.inr (Or.inr ((jsval_guard_iff _).mp h3))), fun _ => trivial⟩
        · rw [if_neg h3]
          simp only [isOkB]
          constructor
          · intro hfalse
            exact absurd hfalse (by simp)
          · intro hr
            rcases hr with h | h | h | h
            · exact absurd ((key_guard_iff k).mpr (Or.inl h)) h1
            · exact absurd ((key_guard_iff k).mpr (Or.inr h)) h1
            · exact absurd (beq_iff_eq.mpr h) h2
            · exact absurd ((jsval_guard_iff _).mpr h) h3
  · intro inst h
    simp only [mkApiTalk] at h
    by_cases h1 : (k.getD "" == "") = true
    · rw [if_pos h1] at h
      exact absurd h (by simp)
    · rw [if_neg h1] at h
      by_cases h2 : (m.getD "gpt-4" == "") = true
      · rw [if_pos h2] at h
        exact absurd h (by simp)
      · rw [if_neg h2] at h
        by_cases h3 : ((!(t.getD (JsVal.num 200)).jsTruthy ||
            !(t.getD (JsVal.num 200)).isNumber) = true)
        · rw [if_pos h3] at h
          exact absurd h (by simp)
        · rw [if_neg h3] at h
          obtain rfl : (⟨m.getD "gpt-4", (t.getD (JsVal.num 200)).asNum⟩ : ApiInstance) = inst :=
            Except.ok.inj h
          refine ⟨rfl, ?_⟩
          have hnum : (t.getD (JsVal.num 200)).isNumber = true := by
            simp only [Bool.or_eq_true, Bool.not_eq_true', not_or] at h3
            simpa using h3.2
          exact jsval_num_asNum _ hnum

/-- C8 witness: a concrete valid construction stores the supplied model
and token budget. -/
theorem c8_witness :
    (⟨"gpt-3", (5 : Int)⟩ : ApiInstance).model = (some "gpt-3").getD "gpt-4" ∧
    JsVal.num (⟨"gpt-3", (5 : Int)⟩ : ApiInstance).maxTokens =
      (some (JsVal.num 5)).getD (JsVal.num 200) :=
  (c8_construction (some "key") (some "gpt-3") (some (JsVal.num 5))).2 ⟨"gpt-3", 5⟩ rfl

/-- The formatting stage depends on the environment only through the
formatting outcome. -/
theorem formatStage_congr (env1 env2 : Env) (h : env1.formatOutcome = env2.formatOutcome)
    (st : ApiInstance) (model : String) (mt : Int) (msgs : List ChatMsg) (lang : String)
    (fd : Json) (evs : List Event) (eps : List Endpoint) :
    formatStage env1 st model mt msgs lang fd evs eps =
      formatStage env2 st model mt msgs lang fd evs eps := by
  unfold formatStage
  rw [h]

/-- The chain stage depends on the environment only through the chain
and formatting outcomes. -/
theorem chainStage_congr (env1 env2 : Env) (hc : env1.chainOutcome = env2.chainOutcome)
    (hf : env1.formatOutcome = env2.formatOutcome) (st : ApiInstance) (model : String)
    (mt : Int) (msgs : List ChatMsg) (lang : String) (data : Json) (e : Endpoint)
    (selName : String) (evs : List Event) (eps : List Endpoint) :
    chainStage env1 st model mt msgs lang data e selName evs eps =
      chainStage env2 st model mt msgs lang data e selName evs eps := by
  unfold chainStage
  cases hch : e.chain with
  | none => exact formatStage_congr env1 env2 hf ..
  | some ce =>
    rw [hc]
    cases hco : env2.chainOutcome with
    | error u => rfl
    | ok cresp =>
      cases hb : cresp.jsonBody with
      | error u => simp [hb]
      | ok cdata => simpa [hb] using formatStage_congr env1 env2 hf ..

/-- C9 (amended): every failure the pipeline can encounter — a failing
selection call, a rejected primary fetch, a primary body that is not
valid JSON, a rejected chain fetch or unparsable chain body, or a
failing formatting call — is caught inside `getResponse` and resolves
to the normalized failure value; the HTTP status code, however, is
never inspected, so the observable outcome of a call is unchanged by
the status of a resolved fetch. -/
theorem c9_failure_normalization (st : ApiInstance) (env : Env) (q : String)
    (eps : List Endpoint) (msgs : List ChatMsg) (lang : String) (opts : Options)
    (hq : q ≠ "") (heps : eps ≠ []) :
    (env.selectOutcome = Except.error () →
      ∀ o, getResponse st env q eps msgs lang opts = Except.ok o →
        o.result = normalizedFailure) ∧
    (∀ reply e, env.selectOutcome = Except.ok reply →
      eps.find? (selPred (jsTrim reply)) = some e →
      env.primaryOutcome = Except.error () →
      ∀ o, getResponse st env q eps msgs lang opts = Except.ok o →
        o.result = normalizedFailure) ∧
    (∀ reply e resp, env.selectOutcome = Except.ok reply →
      eps.find? (selPred (jsTrim reply)) = some e →
      env.primaryOutcome = Except.ok resp → resp.jsonBody = Except.error () →
      ∀ o, getResponse st env q eps msgs lang opts = Except.ok o →
        o.result = normalizedFailure) ∧
    (∀ reply e ce resp data, env.selectOutcome = Except.ok reply →
      eps.find? (selPred (jsTrim reply)) = some e → e.chain = some ce →
      env.primaryOutcome = Except.ok resp → resp.jsonBody = Except.ok data →
      (env.chainOutcome = Except.error () ∨
        ∃ cresp, env.chainOutcome = Except.ok cresp ∧ cresp.jsonBody = Except.error ()) →
      ∀ o, getResponse st env q eps msgs lang opts = Except.ok o →
        o.result = normalizedFailure) ∧
    (env.formatOutcome = Except.error () →
      ∀ o, getResponse st env q eps msgs lang opts = Except.ok o →
        o.result = normalizedFailure) ∧
    (∀ s s' b,
      getResponse st ⟨env.selectOutcome, Except.ok ⟨s, b⟩, env.chainOutcome, env.formatOutcome⟩
          q eps msgs lang opts =
        getResponse st ⟨env.selectOutcome, Except.ok ⟨s', b⟩, env.chainOutcome, env.formatOutcome⟩
          q eps msgs lang opts) := by
  have hg := getResponse_ok st env q eps msgs lang opts hq heps
  refine ⟨?_, ?_, ?_, ?_, ?_, ?_⟩
  · intro h o ho
    rw [hg] at ho
    obtain rfl : selectStage env st (effModel st opts) (effMaxTokens st opts) q msgs lang eps = o :=
      Except.ok.inj ho
    unfold selectStage
    rw [h]
  · intro reply e hsel hfind hp o ho
    rw [hg] at ho
    obtain rfl : selectStage env st (effModel st opts) (effMaxTokens st opts) q msgs lang eps = o :=
      Except.ok.inj ho
    unfold selectStage
    rw [hsel]
    simp only [hfind]
    unfold fetchStage
    rw [hp]
  · intro reply e resp hsel hfind hp hb o ho
    rw [hg] at ho
    obtain rfl : selectStage env st (effModel st opts) (effMaxTokens st opts) q msgs lang eps = o :=
      Except.ok.inj ho
    unfold selectStage
    rw [hsel]
    simp only [hfind]
    unfold fetchStage
    rw [hp]
    simp [hb]
  · intro reply e ce resp data hsel hfind hchain hp hb hfail o ho
    rw [hg] at ho
    obtain rfl : selectStage env st (effModel st opts) (effMaxTokens st opts) q msgs lang eps = o :=
      Except.ok.inj ho
    unfold selectStage
    rw [hsel]
    simp only [hfind]
    unfold fetchStage
    rw [hp]
    simp only [hb]
    unfold chainStage
    rw [hchain]
    rcases hfail with hc | ⟨cresp, hc, hcb⟩
    · rw [hc]
    · rw [hc]
      simp [hcb]
  · intro h o ho
    rw [hg] at ho
    obtain rfl : selectStage env st (effModel st opts) (effMaxTokens st opts) q msgs lang eps = o :=
      Except.ok.inj ho
    rcases selectStage_result env st (effModel st opts) (effMaxTokens st opts) q msgs lang eps
      with hr | hr
    · exact hr
    · rw [h] at hr
      exact absurd hr (by simp)
  · intro s s' b
    have hsel : selectStage ⟨env.selectOutcome, Except.ok ⟨s, b⟩, env.chainOutcome,
          env.formatOutcome⟩ st (effModel st opts) (effMaxTokens st opts) q msgs lang eps =
        selectStage ⟨env.selectOutcome, Except.ok ⟨s', b⟩, env.chainOutcome,
          env.formatOutcome⟩ st (effModel st opts) (effMaxTokens st opts) q msgs lang eps := by
      unfold selectStage
      cases hso : env.selectOutcome with
      | error u => rfl
      | ok reply =>
        cases hf : eps.find? (selPred (jsTrim reply)) with
        | none => rfl
        | some e =>
          simp only [hf]
          unfold fetchStage
          cases b with
          | error u => rfl
          | ok data =>
            exact chainStage_congr _ _ rfl rfl ..
    unfold getResponse
    rw [hsel]

/-- Environment of the C9 counterexample: the primary fetch resolves
with HTTP status 500 and a valid JSON body. -/
def env9 : Env :=
  ⟨.ok "orders", .ok ⟨500, .ok (Json.arr [Json.num 1])⟩, .ok ⟨200, .ok (Json.num 1)⟩,
   .ok "All good"⟩

/-- Output of the concrete C9 counterexample run. -/
def c9Out : CallOutput :=
  (getResponse inst0 env9 "q" [epOrders] [] "en" optsNone).toOption.getD dummyOut

/-- C9 counterexample: a non-2xx HTTP status with a valid JSON body is
not converted to the normalized failure value — the pipeline proceeds
and returns the normally formatted answer, because the source never
inspects `response.status`. -/
theorem c9_counterexample :
    env9.primaryOutcome = Except.ok ⟨500, Except.ok (Json.arr [Json.num 1])⟩ ∧
    c9Out.result = "All good" ∧ c9Out.result ≠ normalizedFailure :=
  ⟨rfl, rfl, by decide⟩

/-- Environment of the C9 witness: the primary body is not valid
JSON. -/
def env9b : Env :=
  ⟨.ok "orders", .ok ⟨200, .error ()⟩, .ok ⟨200, .ok (Json.num 1)⟩, .ok "x"⟩

/-- Output of the concrete C9 witness run. -/
def c9bOut : CallOutput :=
  (getResponse inst0 env9b "q" [epOrders] [] "en" optsNone).toOption.getD dummyOut

/-- C9 witness: a malformed primary body resolves to the normalized
failure value. -/
theorem c9_witness : c9bOut.result = normalizedFailure :=
  (c9_failure_normalization inst0 env9b "q" [epOrders] [] "en" optsNone (by decide)
    (List.cons_ne_nil _ _)).2.2.1 "orders" epOrders ⟨200, .error ()⟩ rfl rfl rfl rfl c9bOut rfl

/-- The formatting stage leaves the endpoint list untouched. -/
theorem formatStage_endpointsAfter (env : Env) (st : ApiInstance) (model : String) (mt : Int)
    (msgs : List ChatMsg) (lang : String) (fd : Json) (evs : List Event)
    (eps : List Endpoint) :
    (formatStage env st model mt msgs lang fd evs eps).endpointsAfter = eps := by
  unfold formatStage
  cases h : env.formatOutcome <;> simp [h]

/-- A descriptor with supplied headers, a POST method and a truthy
body, whose headers object the call mutates in place (line 186). -/
def epAuth : Endpoint :=
  ⟨"Create", "http://localhost:3000/items", "Creates an item.",
   ["Add an item."], Json.obj [("data", Json.arr [])],
   some "POST", some [("Authorization", "Bearer t")], none,
   some (Json.obj [("a", Json.num 1)]), none⟩

/-- Environment of the C10 counterexample run. -/
def env10 : Env := envOk "create" (Json.num 1) "done"

/-- Output of the concrete C10 counterexample run. -/
def c10Out : CallOutput :=
  (getResponse inst0 env10 "q" [epAuth] [] "en" optsNone).toOption.getD dummyOut

/-- C10 counterexample: after the call, the caller's descriptor is not
identical to what was passed in — its headers object has gained
`Content-Type: application/json`, because `requestOptions.headers`
aliases the caller's object and line 186 assigns into it. -/
theorem c10_counterexample :
    epAuth.headers = some [("Authorization", "Bearer t")] ∧
    c10Out.endpointsAfter.map Endpoint.headers =
      [some [("Authorization", "Bearer t"), ("Content-Type", "application/json")]] ∧
    (some [("Authorization", "Bearer t")] : Option (List (String × String))) ≠
      some [("Authorization", "Bearer t"), ("Content-Type", "application/json")] :=
  ⟨rfl, rfl, by decide⟩


/-- One step of the first-match update. -/
theorem updateFirst_cons (p : Endpoint → Bool) (f : Endpoint → Endpoint) (e : Endpoint)
    (es : List Endpoint) :
    updateFirst p f (e :: es) = if p e = true then f e :: es else e :: updateFirst p f es := rfl

/-- Two first-match updates with the same predicate compose. -/
theorem updateFirst_comp (p : Endpoint → Bool) (f g : Endpoint → Endpoint)
    (hp : ∀ e, p (f e) = p e) (l : List Endpoint) :
    updateFirst p g (updateFirst p f l) = updateFirst p (fun e => g (f e)) l := by
  induction l with
  | nil => rfl
  | cons e es ih =>
    by_cases hpe : p e = true
    · rw [updateFirst_cons p f, if_pos hpe, updateFirst_cons p g,
        if_pos (by rw [hp e]; exact hpe), updateFirst_cons p (fun x => g (f x)), if_pos hpe]
    · rw [updateFirst_cons p f, if_neg hpe, updateFirst_cons p g, if_neg hpe,
        updateFirst_cons p (fun x => g (f x)), if_neg hpe, ih]

/-- The body-attachment condition of lines 185 and 209: the descriptor
has a truthy body and its effective method does not upper-case to GET.
Exactly when it holds, the built request carries a JSON body and the
`Content-Type` assignment mutates the supplied headers object. -/
def attachesBody (f : ReqFields) : Bool :=
  (match f.body with
   | some b => b.jsTruthy
   | none => false) &&
  (jsToUpper (jsMethodDefault f.method) != "GET")

/-- Exact effect of building a request on the descriptor's own headers
field: `Content-Type: application/json` is assigned into the supplied
headers object precisely when the request attaches a JSON body;
otherwise the field is untouched. -/
theorem buildRequest_snd_eq (f : ReqFields) :
    (buildRequest f).2 =
      (if attachesBody f = true
       then f.headers.map (fun hs => setHeader hs "Content-Type" "application/json")
       else f.headers) := by
  obtain ⟨url, method, headers, query, body⟩ := f
  simp only [buildRequest, attachesBody]
  cases body with
  | none => simp
  | some b =>
    dsimp only
    by_cases hcond : (b.jsTruthy && (jsToUpper (jsMethodDefault method) != "GET")) = true
    · rw [if_pos hcond, if_pos hcond]
      cases headers with
      | none => rfl
      | some hs => rfl
    · rw [if_neg hcond, if_neg hcond]

/-- The primary-header mutation spelled out: only the headers field
changes, and only under the body-attachment condition. -/
theorem updHdr_eq (x : Endpoint) :
    updHdr x =
      { x with headers :=
          (if attachesBody x.toReqFields = true
           then x.headers.map (fun hs => setHeader hs "Content-Type" "application/json")
           else x.headers) } := by
  unfold updHdr
  rw [buildRequest_snd_eq]
  rfl

/-- Both header mutations spelled out: only the headers field and the
chain's headers change, each exactly under its own body-attachment
condition. -/
theorem updChain_updHdr_eq (x : Endpoint) :
    updChain (updHdr x) =
      { x with
        headers :=
          (if attachesBody x.toReqFields = true
           then x.headers.map (fun hs => setHeader hs "Content-Type" "application/json")
           else x.headers),
        chain :=
          x.chain.map (fun c =>
            { c with headers :=
                (if attachesBody c = true
                 then c.headers.map (fun hs => setHeader hs "Content-Type" "application/json")
                 else c.headers) }) } := by
  unfold updChain updHdr
  simp only [buildRequest_snd_eq]
  rfl

/-- A successful first-match search splits the list into a prefix of
non-matching elements, the found element, and the remainder. -/
theorem find?_takeWhile_split (p : Endpoint → Bool) (l : List Endpoint) (e : Endpoint)
    (h : l.find? p = some e) :
    l = l.takeWhile (fun x => !p x) ++ e :: (l.dropWhile (fun x => !p x)).tail ∧
      ∀ x ∈ l.takeWhile (fun x => !p x), p x = false := by
  induction l with
  | nil => exact absurd h (by simp)
  | cons a as ih =>
    by_cases hpa : p a = true
    · have ha : a = e := by
        rw [List.find?_cons_of_pos _ hpa] at h
        exact Option.some.inj h
      subst ha
      constructor
      · simp [List.takeWhile_cons, List.dropWhile_cons, hpa]
      · intro x hx
        simp [List.takeWhile_cons, hpa] at hx
    · have hpa' : p a = false := by simpa using hpa
      rw [List.find?_cons_of_neg _ hpa] at h
      obtain ⟨ih1, ih2⟩ := ih h
      constructor
      · simp only [List.takeWhile_cons, List.dropWhile_cons, hpa', Bool.not_false, if_true,
          List.cons_append, List.cons.injEq, true_and]
        exact ih1
      · intro x hx
        simp only [List.takeWhile_cons, hpa', Bool.not_false, if_true, List.mem_cons] at hx
        rcases hx with rfl | hx
        · exact hpa'
        · exact ih2 x hx

/-- Updating the first match of a split list rewrites exactly the found
element and shares the prefix and suffix verbatim. -/
theorem updateFirst_split (p : Endpoint → Bool) (f : Endpoint → Endpoint)
    (pre post : List Endpoint) (e : Endpoint)
    (hpre : ∀ x ∈ pre, p x = false) (hpe : p e = true) :
    updateFirst p f (pre ++ e :: post) = pre ++ f e :: post := by
  induction pre with
  | nil => simp [updateFirst_cons, hpe]
  | cons a pre2 ih =>
    have hpa : p a = false := hpre a (List.mem_cons_self a pre2)
    simp only [List.cons_append, updateFirst_cons, hpa, Bool.false_eq_true, if_false,
      List.cons.injEq, true_and]
    exact ih (fun x hx => hpre x (List.mem_cons_of_mem a hx))

/-- With a failing selection call, the endpoint list is untouched. -/
theorem selectStage_endpointsAfter_of_err (env : Env) (st : ApiInstance) (model : String)
    (mt : Int) (q : String) (msgs : List ChatMsg) (lang : String) (eps : List Endpoint)
    (hs : env.selectOutcome = Except.error ()) :
    (selectStage env st model mt q msgs lang eps).endpointsAfter = eps := by
  unfold selectStage
  rw [hs]

/-- With no matching descriptor, the endpoint list is untouched. -/
theorem selectStage_endpointsAfter_of_nomatch (env : Env) (st : ApiInstance) (model : String)
    (mt : Int) (q : String) (msgs : List ChatMsg) (lang : String) (eps : List Endpoint)
    (reply : String) (hs : env.selectOutcome = Except.ok reply)
    (hf : eps.find? (selPred (jsTrim reply)) = none) :
    (selectStage env st model mt q msgs lang eps).endpointsAfter = eps := by
  unfold selectStage
  rw [hs]
  simp [hf]

/-- With a matching descriptor, the post-call endpoint list is that of
the fetch stage. -/
theorem selectStage_endpointsAfter_of_match (env : Env) (st : ApiInstance) (model : String)
    (mt : Int) (q : String) (msgs : List ChatMsg) (lang : String) (eps : List Endpoint)
    (reply : String) (e : Endpoint) (hs : env.selectOutcome = Except.ok reply)
    (hf : eps.find? (selPred (jsTrim reply)) = some e) :
    (selectStage env st model mt q msgs lang eps).endpointsAfter =
      (fetchStage env st model mt msgs lang e (jsTrim reply)
        [Event.modelCall model (selectCallMsgs msgs q eps) 50] eps).endpointsAfter := by
  unfold selectStage
  rw [hs]
  simp [hf]

/-- When the primary fetch rejects or its body fails to parse, only the
primary-header mutation has happened. -/
theorem fetchStage_endpointsAfter_of_fail (env : Env) (st : ApiInstance) (model : String)
    (mt : Int) (msgs : List ChatMsg) (lang : String) (e : Endpoint) (selName : String)
    (evs : List Event) (eps : List Endpoint)
    (hp : env.primaryOutcome = Except.error () ∨
      ∃ resp, env.primaryOutcome = Except.ok resp ∧ resp.jsonBody = Except.error ()) :
    (fetchStage env st model mt msgs lang e selName evs eps).endpointsAfter =
      updateFirst (selPred selName) updHdr eps := by
  unfold fetchStage
  rcases hp with hp | ⟨resp, hp, hb⟩
  · rw [hp]
  · rw [hp]
    simp [hb]

/-- When the primary body parses, the post-call endpoint list is that
of the chain stage over the header-mutated list. -/
theorem fetchStage_endpointsAfter_of_data (env : Env) (st : ApiInstance) (model : String)
    (mt : Int) (msgs : List ChatMsg) (lang : String) (e : Endpoint) (selName : String)
    (evs : List Event) (eps : List Endpoint) (resp : HttpResp) (data : Json)
    (hp : env.primaryOutcome = Except.ok resp) (hb : resp.jsonBody = Except.ok data) :
    (fetchStage env st model mt msgs lang e selName evs eps).endpointsAfter =
      (chainStage env st model mt msgs lang data e selName
        (evs ++ [Event.httpFetch (buildRequest e.toReqFields).1])
        (updateFirst (selPred selName) updHdr eps)).endpointsAfter := by
  unfold fetchStage
  rw [hp]
  simp [hb]

/-- Without a chain sub-descriptor the chain stage touches nothing. -/
theorem chainStage_endpointsAfter_of_none (env : Env) (st : ApiInstance) (model : String)
    (mt : Int) (msgs : List ChatMsg) (lang : String) (data : Json) (e : Endpoint)
    (selName : String) (evs : List Event) (eps : List Endpoint)
    (hchain : e.chain = none) :
    (chainStage env st model mt msgs lang data e selName evs eps).endpointsAfter = eps := by
  unfold chainStage
  rw [hchain]
  exact formatStage_endpointsAfter ..

/-- With a chain sub-descriptor the chain stage applies exactly the
chain-header mutation to the selected descriptor, whatever the chain
fetch outcome. -/
theorem chainStage_endpointsAfter_of_some (env : Env) (st : ApiInstance) (model : String)
    (mt : Int) (msgs : List ChatMsg) (lang : String) (data : Json) (e : Endpoint)
    (selName : String) (evs : List Event) (eps : List Endpoint) (ce : ReqFields)
    (hchain : e.chain = some ce) :
    (chainStage env st model mt msgs lang data e selName evs eps).endpointsAfter =
      updateFirst (selPred selName) updChain eps := by
  unfold chainStage
  rw [hchain]
  cases ho : env.chainOutcome with
  | error u => simp
  | ok cresp =>
    cases hb : cresp.jsonBody with
    | error u => simp [hb]
    | ok cdata => simpa [hb] using formatStage_endpointsAfter ..

/-- C10 (amended): a call never touches the instance state; with no
selected descriptor the endpoint list is untouched; and with a selected
descriptor the post-call list shares the non-matching prefix and the
suffix verbatim with the input — every other descriptor is identical —
while the selected descriptor itself changes in no field except its
headers, which gain (or overwrite) `Content-Type: application/json`
exactly when the primary request attaches a JSON body, and — once the
primary body has parsed and the chain request is built — its chain
headers, which gain the same entry exactly when the chain request
attaches a JSON body.  The messages list and options object are plain
values the pipeline only reads. -/
theorem c10_frame (st : ApiInstance) (env : Env) (q : String) (eps : List Endpoint)
    (msgs : List ChatMsg) (lang : String) (opts : Options)
    (hq : q ≠ "") (heps : eps ≠ []) :
    ∀ o, getResponse st env q eps msgs lang opts = Except.ok o →
      o.instAfter = st ∧
      (env.selectOutcome = Except.error () → o.endpointsAfter = eps) ∧
      (∀ reply, env.selectOutcome = Except.ok reply →
        (eps.find? (selPred (jsTrim reply)) = none → o.endpointsAfter = eps) ∧
        (∀ e, eps.find? (selPred (jsTrim reply)) = some e →
          eps = eps.takeWhile (fun x => !selPred (jsTrim reply) x) ++
            e :: (eps.dropWhile (fun x => !selPred (jsTrim reply) x)).tail ∧
          ((env.primaryOutcome = Except.error () ∨
              ∃ resp, env.primaryOutcome = Except.ok resp ∧ resp.jsonBody = Except.error ()) →
            o.endpointsAfter =
              eps.takeWhile (fun x => !selPred (jsTrim reply) x) ++
                { e with headers :=
                    (if attachesBody e.toReqFields = true
                     then e.headers.map (fun hs => setHeader hs "Content-Type" "application/json")
                     else e.headers) } ::
                (eps.dropWhile (fun x => !selPred (jsTrim reply) x)).tail) ∧
          (∀ resp data, env.primaryOutcome = Except.ok resp → resp.jsonBody = Except.ok data →
            o.endpointsAfter =
              eps.takeWhile (fun x => !selPred (jsTrim reply) x) ++
                { e with
                  headers :=
                    (if attachesBody e.toReqFields = true
                     then e.headers.map (fun hs => setHeader hs "Content-Type" "application/json")
                     else e.headers),
                  chain :=
                    e.chain.map (fun c =>
                      { c with headers :=
                          (if attachesBody c = true
                           then c.headers.map
                             (fun hs => setHeader hs "Content-Type" "application/json")
                           else c.headers) }) } ::
                (eps.dropWhile (fun x => !selPred (jsTrim reply) x)).tail))) := by
  intro o ho
  rw [getResponse_ok st env q eps msgs lang opts hq heps] at ho
  obtain rfl : selectStage env st (effModel st opts) (effMaxTokens st opts) q msgs lang eps = o :=
    Except.ok.inj ho
  refine ⟨selectStage_instAfter ..,
    fun h => selectStage_endpointsAfter_of_err env st (effModel st opts) (effMaxTokens st opts)
      q msgs lang eps h,
    fun reply hsel =>
      ⟨fun hf => selectStage_endpointsAfter_of_nomatch env st (effModel st opts)
        (effMaxTokens st opts) q msgs lang eps reply hsel hf,
       fun e hfind => ?_⟩⟩
  have hpe : selPred (jsTrim reply) e = true := List.find?_some hfind
  obtain ⟨hsplit, hpre⟩ := find?_takeWhile_split (selPred (jsTrim reply)) eps e hfind
  have hmatch := selectStage_endpointsAfter_of_match env st (effModel st opts)
    (effMaxTokens st opts) q msgs lang eps reply e hsel hfind
  have hupdH : updateFirst (selPred (jsTrim reply)) updHdr eps =
      eps.takeWhile (fun x => !selPred (jsTrim reply) x) ++ updHdr e ::
        (eps.dropWhile (fun x => !selPred (jsTrim reply) x)).tail := by
    conv_lhs => rw [hsplit]
    exact updateFirst_split _ _ _ _ _ hpre hpe
  refine ⟨hsplit, fun hfail => ?_, fun resp data hp hb => ?_⟩
  · rw [hmatch,
      fetchStage_endpointsAfter_of_fail env st (effModel st opts) (effMaxTokens st opts)
        msgs lang e (jsTrim reply) _ eps hfail,
      hupdH, updHdr_eq]
  · rw [hmatch,
      fetchStage_endpointsAfter_of_data env st (effModel st opts) (effMaxTokens st opts)
        msgs lang e (jsTrim reply) _ eps resp data hp hb]
    cases hchain : e.chain with
    | none =>
      rw [chainStage_endpointsAfter_of_none env st (effModel st opts) (effMaxTokens st opts)
        msgs lang data e (jsTrim reply) _ _ hchain, hupdH, updHdr_eq]
      have hmap : Option.map (fun c =>
          { c with headers :=
              (if attachesBody c = true
               then c.headers.map (fun hs => setHeader hs "Content-Type" "application/json")
               else c.headers) }) (none : Option ReqFields) = e.chain := by
        rw [hchain]
        rfl
      rw [hmap]
    | some ce =>
      rw [chainStage_endpointsAfter_of_some env st (effModel st opts) (effMaxTokens st opts)
        msgs lang data e (jsTrim reply) _ _ ce hchain,
        updateFirst_comp (selPred (jsTrim reply)) updHdr updChain (fun x => rfl) eps]
      have hupdHC : updateFirst (selPred (jsTrim reply)) (fun x => updChain (updHdr x)) eps =
          eps.takeWhile (fun x => !selPred (jsTrim reply) x) ++ updChain (updHdr e) ::
            (eps.dropWhile (fun x => !selPred (jsTrim reply) x)).tail := by
        conv_lhs => rw [hsplit]
        exact updateFirst_split _ _ _ _ _ hpre hpe
      rw [hupdHC, updChain_updHdr_eq, hchain]

/-- Chain sub-descriptor of the C10 witness: a PUT request with its own
headers object and a truthy body, so the chain-header mutation
fires. -/
def chainAuth : ReqFields :=
  ⟨"http://localhost:3000/prices", some "PUT", some [("X-Api", "k")], none, some (Json.num 2)⟩

/-- Selected descriptor of the C10 witness: POST with supplied headers,
a truthy body and a chain sub-descriptor. -/
def epAuthChain : Endpoint :=
  ⟨"Create", "http://localhost:3000/items", "Creates an item.",
   ["Add an item."], Json.obj [("data", Json.arr [])],
   some "POST", some [("Authorization", "Bearer t")], none,
   some (Json.obj [("a", Json.num 1)]), some chainAuth⟩

/-- Environment of the C10 witness run. -/
def env10b : Env := envOk "create" (Json.num 3) "done"

/-- Output of the concrete C10 witness run over a three-descriptor
catalog whose middle descriptor is selected. -/
def c10bOut : CallOutput :=
  (getResponse inst0 env10b "q" [epOrders, epAuthChain, epQuery] [] "en" optsNone).toOption.getD
    dummyOut

/-- C10 witness: with the middle of three descriptors selected, the
instance is unchanged and the post-call list keeps the surrounding
descriptors verbatim while the selected one changes exactly by the
conditional `Content-Type` assignments to its own and chain
headers. -/
theorem c10_witness :
    c10bOut.instAfter = inst0 ∧
    c10bOut.endpointsAfter =
      [epOrders, epAuthChain, epQuery].takeWhile
          (fun x => !selPred (jsTrim "create") x) ++
        { epAuthChain with
          headers :=
            (if attachesBody epAuthChain.toReqFields = true
             then epAuthChain.headers.map
               (fun hs => setHeader hs "Content-Type" "application/json")
             else epAuthChain.headers),
          chain :=
            epAuthChain.chain.map (fun c =>
              { c with headers :=
                  (if attachesBody c = true
                   then c.headers.map (fun hs => setHeader hs "Content-Type" "application/json")
                   else c.headers) }) } ::
        ([epOrders, epAuthChain, epQuery].dropWhile
          (fun x => !selPred (jsTrim "create") x)).tail := by
  have h := c10_frame inst0 env10b "q" [epOrders, epAuthChain, epQuery] [] "en" optsNone
    (by decide) (List.cons_ne_nil _ _) c10bOut rfl
  exact ⟨h.1, (((h.2.2 "create" rfl).2 epAuthChain rfl).2.2
    ⟨200, .ok (Json.num 3)⟩ (Json.num 3) rfl rfl)⟩
